import Mathlib

/-
Verification of the Arohana booking backend's availability, slot-generation,
conflict-detection and booking-lifecycle logic.

Shallow embedding conventions:
* "HH:MM" time-of-day strings are kept as `String` and converted with
  `parseHHMM`, mirroring the JavaScript `split(':').map(Number)` idiom
  (`none` models the NaN outcome, under which every numeric comparison is
  false).
* Calendar dates are abstracted to epoch-day numbers (`Nat`).  The stored
  `sessionDate` is the midnight instant of that day, so the SQL
  `BETWEEN day-start AND day-end` window used by the controllers is day
  equality, and the no-show sweep's `sessionDate < yesterday 23:59:59.999`
  comparison on midnight-valued dates is `day < today`.
* `Date.getDay()` on an epoch day `d` is `(d + 4) % 7` (day 0, 1970-01-01,
  was a Thursday), Sunday-indexed as in JavaScript.
* Database rows are lists of records; a SQL `UPDATE ... WHERE` is a `map`
  that rewrites exactly the matching rows.
* Controller handlers are pure functions returning `Except`/sum-like
  results; an error result leaves the state untouched by construction,
  mirroring the early `return res.status(...)` paths.
-/

namespace Arohana

/-- Booking lifecycle status enum: pending, confirmed, cancelled, completed, no-show. -/
inductive Status where
  | pending
  | confirmed
  | cancelled
  | completed
  | noShow
deriving DecidableEq, Repr

/-- The five status strings accepted by the API, mapped to `Status`
(`no-show` is spelled with a hyphen in the source). -/
def parseStatus (s : String) : Option Status :=
  if s = "pending" then some .pending
  else if s = "confirmed" then some .confirmed
  else if s = "cancelled" then some .cancelled
  else if s = "completed" then some .completed
  else if s = "no-show" then some .noShow
  else none

/-- A status counts as active for conflict detection when it is
pending or confirmed (the `status IN ('pending','confirmed')` filters). -/
def isActiveStatus (s : Status) : Bool :=
  s == .pending || s == .confirmed

/-- Split a character list at every occurrence of `c`
(used to model JavaScript `String.prototype.split`). -/
def splitOnChar (c : Char) : List Char → List (List Char)
  | [] => [[]]
  | x :: xs =>
    match splitOnChar c xs with
    | [] => if x = c then [[], []] else [[x]]
    | h :: t => if x = c then [] :: h :: t else (x :: h) :: t

/-- Parse a non-empty all-digit character list as a decimal number,
modelling JavaScript `Number(...)` on the route-validated digit strings
(`none` stands for the NaN result on non-numeric input). -/
def digitsToNat (l : List Char) : Option Nat :=
  if l ≠ [] ∧ l.all Char.isDigit then
    some (l.foldl (fun acc c => acc * 10 + (c.toNat - 48)) 0)
  else none

/-- Convert an "HH:MM" string to minutes since midnight, as done by
`sessionTime.split(':').map(Number)` followed by `hour * 60 + minute`.
A string that is not two `:`-separated digit groups yields `none`
(the NaN case, under which the JavaScript overlap comparisons are false). -/
def parseHHMM (s : String) : Option Nat :=
  match splitOnChar ':' s.toList with
  | [h, m] =>
    match digitsToNat h, digitsToNat m with
    | some hh, some mm => some (hh * 60 + mm)
    | _, _ => none
  | _ => none

/-- Left-pad a decimal rendering to two characters with a zero,
modelling `toString().padStart(2, '0')`. -/
def pad2 (n : Nat) : String :=
  if n < 10 then "0" ++ toString n else toString n

/-- Render minutes-since-midnight as an "HH:MM" string, as the slot loop
builds `timeString`. -/
def toHHMM (t : Nat) : String :=
  pad2 (t / 60) ++ ":" ++ pad2 (t % 60)

/-- A booking row as fetched for slot generation:
`attributes: ['sessionTime', 'duration']`. -/
structure SlotBooking where
  sessionTime : String
  duration : Nat
deriving DecidableEq, Repr

/-- The per-booking overlap test of the slot loop:
`time < bookedEnd && time + slotDuration > bookedStart` with
`slotDuration = 60`.  A booking whose time fails to parse contributes
`false` (NaN comparisons). -/
def bookingBlocks (time : Nat) (b : SlotBooking) : Bool :=
  match parseHHMM b.sessionTime with
  | some bookedStart =>
    decide (time < bookedStart + b.duration) && decide (time + 60 > bookedStart)
  | none => false

/-- The `isBooked` test of the slot loop: some existing booking overlaps
the candidate slot. -/
def slotIsBooked (time : Nat) (bookings : List SlotBooking) : Bool :=
  bookings.any (bookingBlocks time)

/-- The slot-generation loop of `getTherapistAvailability`:
`for (let time = startTime; time + slotDuration <= endTime; time += slotDuration)`
with `slotDuration = 60`, pushing `timeString` whenever the slot is not booked. -/
def slotGenLoop (time endTime : Nat) (bookings : List SlotBooking) : List String :=
  if time + 60 ≤ endTime then
    if slotIsBooked time bookings then
      slotGenLoop (time + 60) endTime bookings
    else
      toHHMM time :: slotGenLoop (time + 60) endTime bookings
  else []
termination_by endTime - time
decreasing_by all_goals omega

/-- Slot generation on the parsed working-hours bounds.  If either bound
fails to parse (NaN), the loop condition is false from the start and no
slot is produced. -/
def generateSlots (startTime endTime : Option Nat) (bookings : List SlotBooking) : List String :=
  match startTime, endTime with
  | some s, some e => slotGenLoop s e bookings
  | _, _ => []

/-- Candidate slot start times as the specification words them: `t`
iterated from `start` to `end - slotDuration` inclusive in steps of 60. -/
def specCandidates (startTime endTime : Nat) : List Nat :=
  (List.range ((endTime - startTime) / 60)).map (fun k => startTime + 60 * k)

/-- The specification's availability test for a candidate `t`: for no
existing booking do both `t < bookedStart + bookedDuration` and
`t + 60 > bookedStart` hold. -/
def specAvailable (t : Nat) (bookings : List SlotBooking) : Bool :=
  bookings.all (fun b => !(bookingBlocks t b))

/-- The Slot Generator output as the specification describes it:
the kept candidates, in order, rendered as "HH:MM" strings. -/
def specSlots (startTime endTime : Nat) (bookings : List SlotBooking) : List String :=
  ((specCandidates startTime endTime).filter (fun t => specAvailable t bookings)).map toHHMM

/-- A per-day record of a therapist's weekly availability JSONB:
`{start, end, available}`.  The JSON field `end` is a Lean keyword and is
embedded as `endT`. -/
structure AvailabilityDay where
  start : String
  endT : String
  available : Bool
deriving DecidableEq, Repr

/-- A therapist's weekly availability object, keyed by day name.
`none` models an absent day key. -/
structure WeeklyAvailability where
  sunday : Option AvailabilityDay
  monday : Option AvailabilityDay
  tuesday : Option AvailabilityDay
  wednesday : Option AvailabilityDay
  thursday : Option AvailabilityDay
  friday : Option AvailabilityDay
  saturday : Option AvailabilityDay
deriving DecidableEq, Repr

/-- JavaScript `Date.getDay()` for an epoch-day number: Sunday-indexed,
day 0 (1970-01-01) being a Thursday. -/
def getDay (d : Nat) : Nat := (d + 4) % 7

/-- Look up the day record by the Sunday-indexed day number, modelling
`['sunday', ..., 'saturday'][getDay]` followed by the property access
`therapist.availability[dayOfWeek]`. -/
def dayRecord (w : WeeklyAvailability) (dayIdx : Nat) : Option AvailabilityDay :=
  match dayIdx with
  | 0 => w.sunday
  | 1 => w.monday
  | 2 => w.tuesday
  | 3 => w.wednesday
  | 4 => w.thursday
  | 5 => w.friday
  | 6 => w.saturday
  | _ => none

/-- Result of the availability computation for a found therapist:
either the `{available: false}` response or the `{available: true,
availableSlots, workingHours: {start, end}}` response. -/
inductive AvailabilityResult where
  | unavailable
  | available (slots : List String) (start endT : String)
deriving DecidableEq, Repr

/-- The availability/slot core of `getTherapistAvailability`, given the
therapist's weekly schedule, the requested epoch day, and that day's
pending/confirmed bookings.  It is a pure function: no state is read
beyond the arguments and none is written. -/
def getTherapistAvailability (w : WeeklyAvailability) (day : Nat)
    (bookings : List SlotBooking) : AvailabilityResult :=
  match dayRecord w (getDay day) with
  | none => .unavailable
  | some a =>
    if a.available = false then .unavailable
    else .available (generateSlots (parseHHMM a.start) (parseHHMM a.endT) bookings)
      a.start a.endT

/-- A calendar date as accepted by the `date=YYYY-MM-DD` query parameter. -/
structure CalendarDate where
  year : Nat
  month : Nat
  day : Nat
deriving DecidableEq, Repr

/-- Gregorian leap-year rule. -/
def isLeapYear (y : Nat) : Bool :=
  (y % 4 == 0 && y % 100 != 0) || y % 400 == 0

/-- Days in a month (months numbered 1..12; 0 for an invalid month). -/
def daysInMonth (y m : Nat) : Nat :=
  match m with
  | 1 => 31
  | 2 => if isLeapYear y then 29 else 28
  | 3 => 31
  | 4 => 30
  | 5 => 31
  | 6 => 30
  | 7 => 31
  | 8 => 31
  | 9 => 30
  | 10 => 31
  | 11 => 30
  | 12 => 31
  | _ => 0

/-- The date-parameter validation performed before any availability
computation: the route's `query('date').isISO8601().toDate()` validator
chain together with the controller's `if (!date)` guard, restricted to
the interface's `YYYY-MM-DD` format.  A string is accepted exactly when
it is a well-formed calendar date; anything else (wrong shape,
non-numeric, out-of-range month or day such as `2023-02-30`) yields
`none` and is rejected with a 400 response. -/
def parseDateParam (s : String) : Option CalendarDate :=
  match (splitOnChar '-' s.toList).map digitsToNat with
  | [some y, some m, some d] =>
    if s.length = 10 ∧ 1 ≤ m ∧ m ≤ 12 ∧ 1 ≤ d ∧ d ≤ daysInMonth y m then
      some ⟨y, m, d⟩
    else none
  | _ => none

/-- Epoch-day number of a calendar date (days-from-civil; the exact
value is irrelevant to the claims, only that it is a function of the
date). -/
def epochDay (cd : CalendarDate) : Nat :=
  let y := if cd.month ≤ 2 then cd.year - 1 else cd.year
  let era := y / 400
  let yoe := y % 400
  let mp := if cd.month > 2 then cd.month - 3 else cd.month + 9
  let doy := (153 * mp + 2) / 5 + cd.day - 1
  let doe := yoe * 365 + yoe / 4 - yoe / 100 + doy
  era * 146097 + doe - 719468

/-- Full response of `GET /therapists/:id/availability`, distinguishing
the validation failure (400), the missing therapist (404) and the
availability result. -/
inductive AvailabilityResponse where
  | validationError
  | therapistNotFound
  | result (r : AvailabilityResult)
deriving DecidableEq, Repr

/-- The availability route: the express-validator date check runs first;
only a request carrying a valid date reaches the therapist lookup and
the availability/slot computation. -/
def availabilityRoute (dateParam : Option String)
    (therapist : Option WeeklyAvailability) (bookings : List SlotBooking) :
    AvailabilityResponse :=
  match dateParam with
  | none => .validationError
  | some s =>
    match parseDateParam s with
    | none => .validationError
    | some cd =>
      match therapist with
      | none => .therapistNotFound
      | some w => .result (getTherapistAvailability w (epochDay cd) bookings)

/-- A booking row.  `sessionDate` is the epoch-day number of the stored
midnight-valued date; `sessionTime` is the validated "HH:MM" string. -/
structure Booking where
  id : Nat
  patientId : Nat
  therapistId : Nat
  sessionDate : Nat
  sessionTime : String
  duration : Nat
  status : Status
  notes : Option String
  meetingLink : Option String
  cancelledAt : Option Nat
  cancelledBy : Option Nat
  cancellationReason : Option String
deriving DecidableEq, Repr

/-- The body of `POST /bookings` after route validation (therapist id,
ISO date, HH:MM time, duration defaulting to 60, session type, notes). -/
structure BookingRequest where
  therapistId : Nat
  sessionDate : Nat
  sessionTime : String
  duration : Nat
  sessionType : String
  notes : Option String
deriving DecidableEq, Repr

/-- Error outcomes of `createBooking` (404 therapist, 400 unverified,
400 unavailable day, 400 conflict). -/
inductive CreateError where
  | therapistNotFound
  | notVerified
  | dayUnavailable
  | conflict
deriving DecidableEq, Repr

/-- The conflict query of `createBooking`: an existing booking of the
same therapist, on the same calendar day, with the exact same start-time
string, in status pending or confirmed. -/
def conflictExists (bookings : List Booking) (req : BookingRequest) : Bool :=
  bookings.any (fun b =>
    decide (b.therapistId = req.therapistId) &&
    decide (b.sessionDate = req.sessionDate) &&
    decide (b.sessionTime = req.sessionTime) &&
    isActiveStatus b.status)

/-- `createBooking`: therapist lookup and verification, the day-of-week
availability gate, the exact-start-time conflict query, then insertion
of a new `pending` booking.  The therapist argument carries the weekly
schedule and the `isVerified` flag; the booking list is the bookings
table. -/
def createBooking (bookings : List Booking)
    (therapist : Option (WeeklyAvailability × Bool)) (req : BookingRequest)
    (newId patientId : Nat) : Except CreateError (List Booking) :=
  match therapist with
  | none => .error .therapistNotFound
  | some (w, verified) =>
    if verified = false then .error .notVerified
    else
      match dayRecord w (getDay req.sessionDate) with
      | none => .error .dayUnavailable
      | some a =>
        if a.available = false then .error .dayUnavailable
        else if conflictExists bookings req then .error .conflict
        else .ok (bookings ++
          [⟨newId, patientId, req.therapistId, req.sessionDate, req.sessionTime,
            req.duration, .pending, req.notes, none, none, none, none⟩])

/-- The body of `PUT /bookings/:id` after route validation. -/
structure UpdateRequest where
  status : Option String
  notes : Option String
  meetingLink : Option String
  cancellationReason : Option String
deriving DecidableEq, Repr

/-- The update step of `updateBooking` on a found, authorized booking:
`notes` and `meetingLink` are applied when present; a requested status is
applied when it is one of the five enum strings (any current status);
a transition to `cancelled` additionally records timestamp, actor and,
when the supplied reason string is truthy (non-empty), the reason. -/
def updateBooking (b : Booking) (req : UpdateRequest) (now actorId : Nat) :
    Booking :=
  let b1 := match req.notes with
    | some n => { b with notes := some n }
    | none => b
  let b2 := match req.meetingLink with
    | some m => { b1 with meetingLink := some m }
    | none => b1
  match req.status with
  | some s =>
    match parseStatus s with
    | some st =>
      if st = .cancelled then
        { b2 with
          status := st
          cancelledAt := some now
          cancelledBy := some actorId
          cancellationReason :=
            match req.cancellationReason with
            | some r => if r.isEmpty then b2.cancellationReason else some r
            | none => b2.cancellationReason }
      else { b2 with status := st }
    | none => b2
  | none => b2

/-- Error outcomes of `cancelBooking` once the booking is found and the
caller authorized. -/
inductive CancelError where
  | alreadyCancelled
  | completedBooking
deriving DecidableEq, Repr

/-- The cancellation step of `cancelBooking` on a found, authorized
booking: rejected when already `cancelled` or `completed` (the booking is
then left untouched — the handler returns before any write); otherwise
the status becomes `cancelled` and timestamp, actor and (truthy) reason
are recorded. -/
def cancelBooking (b : Booking) (now actorId : Nat) (reason : Option String) :
    Except CancelError Booking :=
  if b.status = .cancelled then .error .alreadyCancelled
  else if b.status = .completed then .error .completedBooking
  else .ok
    { b with
      status := .cancelled
      cancelledAt := some now
      cancelledBy := some actorId
      cancellationReason :=
        match reason with
        | some r => if r.isEmpty then b.cancellationReason else some r
        | none => b.cancellationReason }

/-- `cancelBooking` lifted to the bookings table: the row with the given
id is replaced by its cancelled version when the cancellation succeeds,
and kept as is when it is rejected. -/
def cancelBookingState (bookings : List Booking) (id now actorId : Nat)
    (reason : Option String) : List Booking :=
  bookings.map (fun b =>
    if b.id = id then
      match cancelBooking b now actorId reason with
      | .ok b2 => b2
      | .error _ => b
    else b)

/-- One pass of the no-show sweep `markNoShows`, as the SQL
`UPDATE bookings SET status='no-show' WHERE sessionDate < yesterdayEOD
AND status IN ('pending','confirmed')`.  On midnight-valued dates the
comparison with yesterday 23:59:59.999 is `day < today`, so the pass is
parametrized by the current epoch day. -/
def markNoShows (today : Nat) (bookings : List Booking) : List Booking :=
  bookings.map (fun b =>
    if decide (b.sessionDate < today) && isActiveStatus b.status then
      { b with status := .noShow }
    else b)

/-- Interval-overlap test between two bookings, on their parsed start
times and durations: `[s, s + dur)` intervals intersect.  Unparseable
times never overlap (NaN semantics). -/
def bookingsOverlap (b c : Booking) : Bool :=
  match parseHHMM b.sessionTime, parseHHMM c.sessionTime with
  | some s, some t => decide (s < t + c.duration) && decide (t < s + b.duration)
  | _, _ => false

/-- Two bookings compete for the same therapist calendar slot space. -/
def sameSlotGroup (b c : Booking) : Bool :=
  decide (b.therapistId = c.therapistId) && decide (b.sessionDate = c.sessionDate)

/-- The specification's booking invariant: for a given therapist and
date, no two bookings in status pending/confirmed have overlapping
`[time, time + duration)` intervals. -/
def overlapFree (bookings : List Booking) : Prop :=
  bookings.Pairwise (fun b c =>
    sameSlotGroup b c = true → isActiveStatus b.status = true →
    isActiveStatus c.status = true → bookingsOverlap b c = false)

/-- The weaker invariant actually enforced by the conflict query: active
bookings of a therapist on a date have pairwise distinct start-time
strings. -/
def timeUniq (bookings : List Booking) : Prop :=
  bookings.Pairwise (fun b c =>
    sameSlotGroup b c = true → isActiveStatus b.status = true →
    isActiveStatus c.status = true → b.sessionTime ≠ c.sessionTime)

/-- Modelled from the spec: the lifecycle state machine of section 4.4 —
`pending → confirmed → completed`; `pending|confirmed → cancelled`;
`pending|confirmed → no-show`.  The code has no corresponding transition
guard; this definition transcribes the spec's words for comparison. -/
def specValidTransition (a b : Status) : Bool :=
  match a, b with
  | .pending, .confirmed => true
  | .confirmed, .completed => true
  | .pending, .cancelled => true
  | .confirmed, .cancelled => true
  | .pending, .noShow => true
  | .confirmed, .noShow => true
  | _, _ => false

/-- A session row (the fields relevant to the claims). -/
structure SessionRec where
  id : Nat
  bookingId : Nat
  patientId : Nat
  therapistId : Nat
  startTime : Nat
deriving DecidableEq, Repr

/-- Error outcomes of `createSession` once the caller is the assigned
therapist (404 booking, 400 not confirmed, 400 duplicate session). -/
inductive SessionError where
  | bookingNotFound
  | notConfirmed
  | alreadyExists
deriving DecidableEq, Repr

/-- The session-creation core of `createSession`: the booking must exist
and be `confirmed`, and no session for that booking may already exist;
on success the session row is inserted (with `startTime || new Date()`
defaulting) and the booking's status is saved as `completed`.  Every
rejected request returns an error and no changed state. -/
def createSession (bookings : List Booking) (sessions : List SessionRec)
    (bookingId newId defaultStart : Nat) (startTime : Option Nat) :
    Except SessionError (List Booking × List SessionRec) :=
  match bookings.find? (fun b => decide (b.id = bookingId)) with
  | none => .error .bookingNotFound
  | some booking =>
    if booking.status ≠ .confirmed then .error .notConfirmed
    else if sessions.any (fun s => decide (s.bookingId = bookingId)) then
      .error .alreadyExists
    else
      .ok (bookings.map (fun b =>
          if b.id = bookingId then { b with status := .completed } else b),
        sessions ++
          [⟨newId, bookingId, booking.patientId, booking.therapistId,
            startTime.getD defaultStart⟩])

/-- No two session rows reference the same booking. -/
def atMostOneSessionPerBooking (sessions : List SessionRec) : Prop :=
  sessions.Pairwise (fun s t => s.bookingId ≠ t.bookingId)

instance (bookings : List Booking) : Decidable (overlapFree bookings) := by
  unfold overlapFree
  infer_instance

instance (bookings : List Booking) : Decidable (timeUniq bookings) := by
  unfold timeUniq
  infer_instance

instance (sessions : List SessionRec) :
    Decidable (atMostOneSessionPerBooking sessions) := by
  unfold atMostOneSessionPerBooking
  infer_instance

/-- A weekly schedule whose only working day is Thursday 09:00-17:00
(epoch day 0 is a Thursday). -/
def exTherapistAvail : WeeklyAvailability :=
  ⟨none, none, none, none, some ⟨"09:00", "17:00", true⟩, none, none⟩

/-- A confirmed booking of therapist 7 on epoch day 0 at 10:00 for 60
minutes. -/
def exBooking1 : Booking :=
  ⟨1, 11, 7, 0, "10:00", 60, .confirmed, none, none, none, none, none⟩

/-- A bookings table holding just `exBooking1`. -/
def exState0 : List Booking := [exBooking1]

/-- A request for therapist 7, day 0, 10:30 for 60 minutes: its interval
overlaps `exBooking1` but its start-time string differs. -/
def exOverlapReq : BookingRequest := ⟨7, 0, "10:30", 60, "video", none⟩

/-- A request for therapist 7, day 0, at the exact time of `exBooking1`. -/
def exConflictReq : BookingRequest := ⟨7, 0, "10:00", 60, "video", none⟩

/-- A request for therapist 7, day 0, 11:00: neither exact-time nor
interval conflict with `exBooking1`. -/
def exFreeReq : BookingRequest := ⟨7, 0, "11:00", 60, "video", none⟩

/-- The booking inserted for `exOverlapReq` (id 2, patient 12). -/
def exOverlapBooking : Booking :=
  ⟨2, 12, 7, 0, "10:30", 60, .pending, none, none, none, none, none⟩

/-- The booking inserted for `exFreeReq` (id 2, patient 12). -/
def exFreeBooking : Booking :=
  ⟨2, 12, 7, 0, "11:00", 60, .pending, none, none, none, none, none⟩

/-- A completed booking, used to probe the lifecycle restrictions. -/
def exCompletedBooking : Booking :=
  ⟨3, 11, 7, 0, "10:00", 60, .completed, none, none, none, none, none⟩

/-- An update request that only asks for status `pending`. -/
def exSetPendingReq : UpdateRequest := ⟨some "pending", none, none, none⟩

theorem specAvailable_eq_not_isBooked (t : Nat) (bookings : List SlotBooking) :
    specAvailable t bookings = !slotIsBooked t bookings := by
  induction bookings with
  | nil => rfl
  | cons b bs ih =>
    simp only [specAvailable, slotIsBooked, List.all_cons, List.any_cons,
      Bool.not_or] at ih ⊢
    rw [ih]

theorem specCandidates_nil (t en : Nat) (h : ¬ t + 60 ≤ en) :
    specCandidates t en = [] := by
  have : (en - t) / 60 = 0 := Nat.div_eq_of_lt (by omega)
  simp [specCandidates, this]

theorem specCandidates_cons (t en : Nat) (h : t + 60 ≤ en) :
    specCandidates t en = t :: specCandidates (t + 60) en := by
  have h60 : (en - t) / 60 = (en - (t + 60)) / 60 + 1 := by
    rw [Nat.div_eq (en - t) 60]
    have : 0 < 60 ∧ 60 ≤ en - t := by omega
    rw [if_pos this, Nat.sub_sub]
  simp only [specCandidates, h60, List.range_succ_eq_map, List.map_cons,
    List.map_map]
  refine List.cons_eq_cons.mpr ⟨by omega, ?_⟩
  apply List.map_congr_left
  intro k _
  simp only [Function.comp_apply]
  omega

theorem slotGenLoop_eq_specSlots (bookings : List SlotBooking) :
    ∀ m t en, en - t ≤ m →
      slotGenLoop t en bookings = specSlots t en bookings := by
  intro m
  induction m with
  | zero =>
    intro t en h
    have hlt : ¬ t + 60 ≤ en := by omega
    rw [slotGenLoop, if_neg hlt]
    simp [specSlots, specCandidates_nil t en hlt]
  | succ m ih =>
    intro t en h
    by_cases hlt : t + 60 ≤ en
    · have hrec := ih (t + 60) en (by omega)
      rw [slotGenLoop, if_pos hlt, hrec]
      simp only [specSlots, specCandidates_cons t en hlt, List.filter_cons]
      rw [specAvailable_eq_not_isBooked]
      by_cases hb : slotIsBooked t bookings
      · simp [hb]
      · simp [hb]
    · rw [slotGenLoop, if_neg hlt]
      simp [specSlots, specCandidates_nil t en hlt]

theorem specCandidates_pairwise_lt (t en : Nat) :
    (specCandidates t en).Pairwise (· < ·) := by
  rw [specCandidates, List.pairwise_map]
  apply (List.pairwise_lt_range _).imp
  intro a b hab
  omega

/-- C2: for every "HH:MM" start and end time and every list of existing
bookings, the Slot Generator returns exactly the "HH:MM" strings of the
candidate start times iterated from start to end minus 60 inclusive in
60-minute steps, keeping a candidate `t` iff no existing booking
satisfies `t < bookedStart + bookedDuration` and `t + 60 > bookedStart`,
in increasing order; for the 09:00-17:00 window it returns the eight
hourly slots, and a 10:00/60-minute booking excludes 10:00 while 09:00
and 11:00 remain. -/
theorem slotGenerator_correct :
    (∀ (sStr eStr : String) (st en : Nat) (bookings : List SlotBooking),
      parseHHMM sStr = some st → parseHHMM eStr = some en →
      generateSlots (parseHHMM sStr) (parseHHMM eStr) bookings =
        specSlots st en bookings ∧
      ((specCandidates st en).filter
        (fun t => specAvailable t bookings)).Pairwise (· < ·)) ∧
    generateSlots (parseHHMM "09:00") (parseHHMM "17:00") [] =
      ["09:00", "10:00", "11:00", "12:00", "13:00", "14:00", "15:00", "16:00"] ∧
    ("10:00" ∉ generateSlots (parseHHMM "09:00") (parseHHMM "17:00") [⟨"10:00", 60⟩] ∧
      "09:00" ∈ generateSlots (parseHHMM "09:00") (parseHHMM "17:00") [⟨"10:00", 60⟩] ∧
      "11:00" ∈ generateSlots (parseHHMM "09:00") (parseHHMM "17:00") [⟨"10:00", 60⟩]) := by
  have hmain : ∀ (st en : Nat) (bookings : List SlotBooking),
      slotGenLoop st en bookings = specSlots st en bookings := by
    intro st en bookings
    exact slotGenLoop_eq_specSlots bookings (en - st) st en (Nat.le_refl _)
  refine ⟨?_, ?_, ?_⟩
  · intro sStr eStr st en bookings hs he
    rw [hs, he]
    exact ⟨hmain st en bookings,
      List.Pairwise.filter _ (specCandidates_pairwise_lt st en)⟩
  · rw [show parseHHMM "09:00" = some 540 from by decide,
      show parseHHMM "17:00" = some 1020 from by decide]
    show slotGenLoop 540 1020 [] = _
    rw [hmain]
    decide
  · rw [show parseHHMM "09:00" = some 540 from by decide,
      show parseHHMM "17:00" = some 1020 from by decide]
    show _ ∉ slotGenLoop 540 1020 [⟨"10:00", 60⟩] ∧
      _ ∈ slotGenLoop 540 1020 [⟨"10:00", 60⟩] ∧
      _ ∈ slotGenLoop 540 1020 [⟨"10:00", 60⟩]
    rw [hmain]
    refine ⟨by decide, by decide, by decide⟩

/-- Witness for C2: the universally quantified part applied to the
09:00-17:00 window with a 12:30 booking of 45 minutes. -/
theorem slotGenerator_correct_witness :
    parseHHMM "09:00" = some 540 ∧ parseHHMM "17:00" = some 1020 ∧
    generateSlots (parseHHMM "09:00") (parseHHMM "17:00") [⟨"12:30", 45⟩] =
      specSlots 540 1020 [⟨"12:30", 45⟩] :=
  ⟨by decide, by decide,
    (slotGenerator_correct.1 "09:00" "17:00" 540 1020 [⟨"12:30", 45⟩]
      (by decide) (by decide)).1⟩

/-- C4: the Availability Resolver answers `{available: false}` exactly
when the record of the date's Sunday-indexed weekday is missing or
marked unavailable, and otherwise answers `{available: true}` with that
day's working hours; it is a pure function of its inputs. -/
theorem availabilityResolver_correct :
    ∀ (w : WeeklyAvailability) (day : Nat) (bookings : List SlotBooking),
      (getTherapistAvailability w day bookings = .unavailable ↔
        dayRecord w (getDay day) = none ∨
        ∃ a, dayRecord w (getDay day) = some a ∧ a.available = false) ∧
      (∀ a, dayRecord w (getDay day) = some a → a.available = true →
        getTherapistAvailability w day bookings =
          .available
            (generateSlots (parseHHMM a.start) (parseHHMM a.endT) bookings)
            a.start a.endT) := by
  intro w day bookings
  constructor
  · cases h : dayRecord w (getDay day) with
    | none => simp [getTherapistAvailability, h]
    | some a =>
      by_cases hv : a.available = false
      · simp [getTherapistAvailability, h, hv]
      · simp only [getTherapistAvailability, h, if_neg hv]
        constructor
        · intro hcontra
          exact absurd hcontra (by simp)
        · rintro (hcontra | ⟨a2, ha2, hv2⟩)
          · exact absurd hcontra (by simp)
          · rw [Option.some.injEq] at ha2
            exact absurd (ha2 ▸ hv2) hv
  · intro a ha hv
    simp [getTherapistAvailability, ha, hv]

/-- Witness for C4: a schedule with no Sunday record resolves day 3
(a Sunday) to unavailable, and the Thursday record resolves day 0 to
available with its working hours. -/
theorem availabilityResolver_correct_witness :
    getTherapistAvailability exTherapistAvail 3 [] = .unavailable ∧
    getTherapistAvailability exTherapistAvail 0 [] =
      .available
        (generateSlots (parseHHMM "09:00") (parseHHMM "17:00") [])
        "09:00" "17:00" :=
  ⟨(availabilityResolver_correct exTherapistAvail 3 []).1.mpr (Or.inl (by decide)),
    (availabilityResolver_correct exTherapistAvail 0 []).2 ⟨"09:00", "17:00", true⟩
      (by decide) (by decide)⟩

/-- C8: an availability request whose date parameter is missing or does
not parse as a calendar date is answered with the validation error, so
no availability or slot computation takes place. -/
theorem invalidDate_rejected :
    ∀ (dateParam : Option String) (therapist : Option WeeklyAvailability)
      (bookings : List SlotBooking),
      (dateParam = none ∨
        ∃ s, dateParam = some s ∧ parseDateParam s = none) →
      availabilityRoute dateParam therapist bookings = .validationError := by
  intro dateParam therapist bookings h
  rcases h with h | ⟨s, hs, hp⟩
  · rw [h]
    rfl
  · rw [hs]
    simp [availabilityRoute, hp]

/-- Witness for C8: the shape-valid but non-calendar date 2023-02-30 is
rejected before any computation. -/
theorem invalidDate_rejected_witness :
    (some "2023-02-30" = (none : Option String) ∨
      ∃ s, some "2023-02-30" = some s ∧ parseDateParam s = none) ∧
    availabilityRoute (some "2023-02-30") (some exTherapistAvail) [] =
      .validationError :=
  ⟨Or.inr ⟨"2023-02-30", rfl, by decide⟩,
    invalidDate_rejected (some "2023-02-30") (some exTherapistAvail) []
      (Or.inr ⟨"2023-02-30", rfl, by decide⟩)⟩

/-- C9: when the day record is present and available but its working
window is shorter than the 60-minute slot (including end at or before
start), the response is still `{available: true}` with an empty slot
list. -/
theorem shortWindow_empty_slots :
    ∀ (w : WeeklyAvailability) (day : Nat) (bookings : List SlotBooking)
      (a : AvailabilityDay) (st en : Nat),
      dayRecord w (getDay day) = some a → a.available = true →
      parseHHMM a.start = some st → parseHHMM a.endT = some en →
      en < st + 60 →
      getTherapistAvailability w day bookings = .available [] a.start a.endT := by
  intro w day bookings a st en ha hv hst hen hshort
  simp only [getTherapistAvailability, ha, hv]
  rw [if_neg (by simp)]
  rw [hst, hen]
  show AvailabilityResult.available (slotGenLoop st en bookings) a.start a.endT = _
  rw [slotGenLoop_eq_specSlots bookings (en - st) st en (Nat.le_refl _)]
  rw [specSlots, specCandidates_nil st en (by omega)]
  rfl

theorem isActiveStatus_iff (s : Status) :
    isActiveStatus s = true ↔ (s = .pending ∨ s = .confirmed) := by
  cases s <;> simp [isActiveStatus]

theorem conflictExists_iff (bookings : List Booking) (req : BookingRequest) :
    conflictExists bookings req = true ↔
      ∃ b ∈ bookings, b.therapistId = req.therapistId ∧
        b.sessionDate = req.sessionDate ∧ b.sessionTime = req.sessionTime ∧
        (b.status = .pending ∨ b.status = .confirmed) := by
  simp [conflictExists, List.any_eq_true, Bool.and_eq_true, decide_eq_true_eq,
    isActiveStatus_iff, and_assoc]

/-- C3: with the therapist verified and the day available, booking
creation fails with the conflict error precisely when some existing
booking of the same therapist on the same day, in status
pending/confirmed, has the exact same start-time string; a request that
merely overlaps such a booking at a different start time passes the
check and is created. -/
theorem conflictChecker_exact_time :
    ∀ (bookings : List Booking) (w : WeeklyAvailability) (a : AvailabilityDay)
      (req : BookingRequest) (newId patientId : Nat),
      dayRecord w (getDay req.sessionDate) = some a → a.available = true →
      ((createBooking bookings (some (w, true)) req newId patientId =
          .error .conflict ↔
        ∃ b ∈ bookings, b.therapistId = req.therapistId ∧
          b.sessionDate = req.sessionDate ∧ b.sessionTime = req.sessionTime ∧
          (b.status = .pending ∨ b.status = .confirmed)) ∧
      ((¬ ∃ b ∈ bookings, b.therapistId = req.therapistId ∧
          b.sessionDate = req.sessionDate ∧ b.sessionTime = req.sessionTime ∧
          (b.status = .pending ∨ b.status = .confirmed)) →
        ∃ bs2, createBooking bookings (some (w, true)) req newId patientId =
          .ok bs2)) := by
  intro bookings w a req newId patientId ha hv
  have hv2 : ¬ a.available = false := by simp [hv]
  constructor
  · constructor
    · intro heq
      apply (conflictExists_iff bookings req).mp
      by_contra hc
      have hc2 : conflictExists bookings req = false := by
        cases hcc : conflictExists bookings req
        · rfl
        · exact absurd hcc hc
      simp [createBooking, ha, hv2, hc2] at heq
    · intro hex
      have hc := (conflictExists_iff bookings req).mpr hex
      simp [createBooking, ha, hv2, hc]
  · intro hnex
    have hc2 : conflictExists bookings req = false := by
      cases hcc : conflictExists bookings req
      · rfl
      · exact absurd ((conflictExists_iff bookings req).mp hcc) hnex
    refine ⟨bookings ++
      [⟨newId, patientId, req.therapistId, req.sessionDate, req.sessionTime,
        req.duration, .pending, req.notes, none, none, none, none⟩], ?_⟩
    simp [createBooking, ha, hv2, hc2]

/-- Witness for C3: a request at the exact time of the existing
confirmed 10:00 booking is rejected with the conflict error. -/
theorem conflictChecker_exact_time_witness :
    dayRecord exTherapistAvail (getDay exConflictReq.sessionDate) =
      some ⟨"09:00", "17:00", true⟩ ∧
    createBooking exState0 (some (exTherapistAvail, true)) exConflictReq 2 12 =
      .error .conflict :=
  ⟨by decide,
    ((conflictChecker_exact_time exState0 exTherapistAvail
        ⟨"09:00", "17:00", true⟩ exConflictReq 2 12 (by decide) (by decide)).1).mpr
      ⟨exBooking1, by decide, by decide, by decide, by decide, by decide⟩⟩

/-- C5: one pass of the no-show sweep rewrites exactly the
pending/confirmed bookings dated strictly before yesterday end-of-day
(on midnight-valued dates: day before today) to status no-show, leaving
every other booking and every other field unchanged, and a second pass
immediately after changes nothing. -/
theorem markNoShows_correct :
    ∀ (today : Nat) (bookings : List Booking),
      List.Forall₂ (fun b b2 =>
        ((b.sessionDate < today ∧ (b.status = .pending ∨ b.status = .confirmed)) →
          b2 = { b with status := Status.noShow }) ∧
        (¬ (b.sessionDate < today ∧ (b.status = .pending ∨ b.status = .confirmed)) →
          b2 = b))
        bookings (markNoShows today bookings) ∧
      markNoShows today (markNoShows today bookings) = markNoShows today bookings := by
  intro today bookings
  have hiff : ∀ b : Booking,
      (decide (b.sessionDate < today) && isActiveStatus b.status) = true ↔
      (b.sessionDate < today ∧ (b.status = .pending ∨ b.status = .confirmed)) := by
    intro b
    rw [Bool.and_eq_true, decide_eq_true_eq, isActiveStatus_iff]
  constructor
  · induction bookings with
    | nil => exact List.Forall₂.nil
    | cons b bs ih =>
      simp only [markNoShows, List.map_cons]
      refine List.Forall₂.cons ?_ ih
      by_cases hcond :
          b.sessionDate < today ∧ (b.status = .pending ∨ b.status = .confirmed)
      · have hb := (hiff b).mpr hcond
        constructor
        · intro
          rw [if_pos hb]
        · intro hn
          exact absurd hcond hn
      · have hb : ¬ ((decide (b.sessionDate < today) && isActiveStatus b.status) = true) :=
          fun h => hcond ((hiff b).mp h)
        constructor
        · intro hc
          exact absurd hc hcond
        · intro
          rw [if_neg hb]
  · simp only [markNoShows, List.map_map]
    apply List.map_congr_left
    intro b _
    by_cases hcond : (decide (b.sessionDate < today) && isActiveStatus b.status) = true
    · simp only [Function.comp_apply, hcond, if_true]
      simp [isActiveStatus]
    · simp only [Function.comp_apply]
      rw [if_neg hcond, if_neg hcond]

/-- Witness for C5: the sweep on a two-booking table and its
idempotence, instantiated at day 3. -/
theorem markNoShows_correct_witness :
    markNoShows 3 (markNoShows 3 [exBooking1, exCompletedBooking]) =
      markNoShows 3 [exBooking1, exCompletedBooking] :=
  (markNoShows_correct 3 [exBooking1, exCompletedBooking]).2

/-- C6: cancelling is rejected when the booking is already cancelled or
completed (the handler returns before any write, so the booking is
untouched); in every other status it succeeds, setting status to
cancelled and recording the timestamp, the acting user, and a supplied
(non-empty) cancellation reason, with all other fields unchanged. -/
theorem cancelBooking_correct :
    ∀ (b : Booking) (now actorId : Nat) (reason : Option String),
      (b.status = .cancelled →
        cancelBooking b now actorId reason = .error .alreadyCancelled) ∧
      (b.status = .completed →
        cancelBooking b now actorId reason = .error .completedBooking) ∧
      (b.status ≠ .cancelled → b.status ≠ .completed →
        ∃ b2, cancelBooking b now actorId reason = .ok b2 ∧
          b2.status = .cancelled ∧ b2.cancelledAt = some now ∧
          b2.cancelledBy = some actorId ∧
          (∀ r, reason = some r → r.isEmpty = false →
            b2.cancellationReason = some r) ∧
          (reason = none → b2.cancellationReason = b.cancellationReason) ∧
          b2.id = b.id ∧ b2.patientId = b.patientId ∧
          b2.therapistId = b.therapistId ∧ b2.sessionDate = b.sessionDate ∧
          b2.sessionTime = b.sessionTime ∧ b2.duration = b.duration ∧
          b2.notes = b.notes ∧ b2.meetingLink = b.meetingLink) := by
  intro b now actorId reason
  refine ⟨?_, ?_, ?_⟩
  · intro h
    simp [cancelBooking, h]
  · intro h
    have hnc : b.status ≠ .cancelled := by
      rw [h]
      intro hc
      cases hc
    simp [cancelBooking, hnc, h]
  · intro h1 h2
    unfold cancelBooking
    rw [if_neg h1, if_neg h2]
    refine ⟨_, rfl, rfl, rfl, rfl, ?_, ?_, rfl, rfl, rfl, rfl, rfl, rfl, rfl, rfl⟩
    · intro r hr hne
      subst hr
      simp [hne]
    · intro hr
      subst hr
      rfl

/-- Witness for C6: cancelling the confirmed 10:00 booking with reason
"sick" succeeds with the recorded fields. -/
theorem cancelBooking_correct_witness :
    exBooking1.status ≠ .cancelled ∧ exBooking1.status ≠ .completed ∧
    (∃ b2, cancelBooking exBooking1 5 9 (some "sick") = .ok b2 ∧
      b2.status = .cancelled ∧ b2.cancelledAt = some 5 ∧
      b2.cancelledBy = some 9 ∧
      (∀ r, (some "sick" : Option String) = some r → r.isEmpty = false →
        b2.cancellationReason = some r) ∧
      ((some "sick" : Option String) = none →
        b2.cancellationReason = exBooking1.cancellationReason) ∧
      b2.id = exBooking1.id ∧ b2.patientId = exBooking1.patientId ∧
      b2.therapistId = exBooking1.therapistId ∧
      b2.sessionDate = exBooking1.sessionDate ∧
      b2.sessionTime = exBooking1.sessionTime ∧
      b2.duration = exBooking1.duration ∧
      b2.notes = exBooking1.notes ∧ b2.meetingLink = exBooking1.meetingLink) :=
  ⟨by decide, by decide,
    (cancelBooking_correct exBooking1 5 9 (some "sick")).2.2 (by decide) (by decide)⟩

/-- Witness for C9: a Thursday window 09:00-09:30 yields available with
no slots. -/
theorem shortWindow_empty_slots_witness :
    parseHHMM "09:00" = some 540 ∧ parseHHMM "09:30" = some 570 ∧
    getTherapistAvailability
      ⟨none, none, none, none, some ⟨"09:00", "09:30", true⟩, none, none⟩ 0 [] =
      .available [] "09:00" "09:30" :=
  ⟨by decide, by decide,
    shortWindow_empty_slots
      ⟨none, none, none, none, some ⟨"09:00", "09:30", true⟩, none, none⟩ 0 []
      ⟨"09:00", "09:30", true⟩ 540 570 (by decide) (by decide) (by decide)
      (by decide) (by decide)⟩

/-- C7 counterexample: `updateBooking` applies the requested status
`pending` to a `completed` booking, although completed-to-pending is not
a transition of the spec's lifecycle state machine. -/
theorem updateBooking_ignores_lifecycle :
    exCompletedBooking.status = .completed ∧
    (updateBooking exCompletedBooking exSetPendingReq 0 0).status = .pending ∧
    specValidTransition .completed .pending = false := by
  refine ⟨rfl, ?_, rfl⟩
  rfl

/-- C7 amended: `updateBooking` applies a requested status exactly when
it is one of the five enum strings, irrespective of the booking's
current status; a request without a status, or with a string outside the
enum, leaves the status unchanged.  No lifecycle-transition restriction
is enforced. -/
theorem updateBooking_status_enum_only :
    ∀ (b : Booking) (req : UpdateRequest) (now actorId : Nat),
      (∀ s st, req.status = some s → parseStatus s = some st →
        (updateBooking b req now actorId).status = st) ∧
      (∀ s, req.status = some s → parseStatus s = none →
        (updateBooking b req now actorId).status = b.status) ∧
      (req.status = none → (updateBooking b req now actorId).status = b.status) := by
  intro b req now actorId
  refine ⟨?_, ?_, ?_⟩
  · intro s st hs hps
    unfold updateBooking
    rw [hs]
    simp only [hps]
    cases hn : req.notes <;> cases hm : req.meetingLink <;>
      by_cases hc : st = Status.cancelled <;> simp [hc]
  · intro s hs hps
    unfold updateBooking
    rw [hs]
    simp only [hps]
    cases hn : req.notes <;> cases hm : req.meetingLink <;> simp
  · intro hs
    unfold updateBooking
    rw [hs]
    cases hn : req.notes <;> cases hm : req.meetingLink <;> simp

/-- Witness for the amended C7: the enum string "confirmed" is applied
to the pending-free example booking, and the non-enum string "archived"
is not. -/
theorem updateBooking_status_enum_only_witness :
    parseStatus "confirmed" = some .confirmed ∧
    (updateBooking exBooking1 ⟨some "confirmed", none, none, none⟩ 0 0).status =
      .confirmed ∧
    parseStatus "archived" = none ∧
    (updateBooking exBooking1 ⟨some "archived", none, none, none⟩ 0 0).status =
      exBooking1.status :=
  ⟨by decide,
    (updateBooking_status_enum_only exBooking1
      ⟨some "confirmed", none, none, none⟩ 0 0).1 "confirmed" .confirmed rfl
      (by decide),
    by decide,
    (updateBooking_status_enum_only exBooking1
      ⟨some "archived", none, none, none⟩ 0 0).2.1 "archived" rfl (by decide)⟩

/-- C10: session creation succeeds exactly when the booking is found,
is `confirmed`, and has no session yet; on success the session row is
added and the booking becomes `completed`, and at most one session per
booking is preserved.  A rejected request returns an error and no new
state. -/
theorem createSession_correct :
    ∀ (bookings : List Booking) (sessions : List SessionRec)
      (bookingId newId defaultStart : Nat) (startTime : Option Nat),
      ((∃ st2, createSession bookings sessions bookingId newId defaultStart
          startTime = .ok st2) ↔
        (∃ b, bookings.find? (fun c => decide (c.id = bookingId)) = some b ∧
          b.status = .confirmed) ∧
        ¬ ∃ s ∈ sessions, s.bookingId = bookingId) ∧
      (∀ bk2 ss2,
        createSession bookings sessions bookingId newId defaultStart startTime =
          .ok (bk2, ss2) →
        atMostOneSessionPerBooking sessions →
        atMostOneSessionPerBooking ss2 ∧
        ∃ b, bookings.find? (fun c => decide (c.id = bookingId)) = some b ∧
          b.status = .confirmed ∧
          bk2 = bookings.map (fun c =>
            if c.id = bookingId then { c with status := Status.completed } else c) ∧
          ss2 = sessions ++
            [⟨newId, bookingId, b.patientId, b.therapistId,
              startTime.getD defaultStart⟩]) := by
  intro bookings sessions bookingId newId defaultStart startTime
  have hexiff : (sessions.any (fun s => decide (s.bookingId = bookingId))) = true ↔
      ∃ s ∈ sessions, s.bookingId = bookingId := by
    simp [List.any_eq_true]
  cases hf : bookings.find? (fun c => decide (c.id = bookingId)) with
  | none =>
    constructor
    · constructor
      · rintro ⟨st2, hok⟩
        simp [createSession, hf] at hok
      · rintro ⟨⟨b, hb, _⟩, _⟩
        cases hb
    · intro bk2 ss2 hok
      simp [createSession, hf] at hok
  | some b =>
    by_cases hst : b.status = Status.confirmed
    · cases hex : sessions.any (fun s => decide (s.bookingId = bookingId)) with
      | true =>
        constructor
        · constructor
          · rintro ⟨st2, hok⟩
            simp [createSession, hf, hst, hex] at hok
          · rintro ⟨_, hnex⟩
            exact absurd (hexiff.mp hex) hnex
        · intro bk2 ss2 hok
          simp [createSession, hf, hst, hex] at hok
      | false =>
        have hok : createSession bookings sessions bookingId newId defaultStart
            startTime = .ok
            (bookings.map (fun c =>
              if c.id = bookingId then { c with status := Status.completed } else c),
             sessions ++
              [⟨newId, bookingId, b.patientId, b.therapistId,
                startTime.getD defaultStart⟩]) := by
          simp [createSession, hf, hst, hex]
        constructor
        · constructor
          · intro
            refine ⟨⟨b, rfl, hst⟩, ?_⟩
            intro hcontra
            rw [← hexiff] at hcontra
            rw [hex] at hcontra
            cases hcontra
          · intro
            exact ⟨_, hok⟩
        · intro bk2 ss2 hok2
          intro hinv
          rw [hok] at hok2
          rw [Except.ok.injEq, Prod.mk.injEq] at hok2
          obtain ⟨hbk, hss⟩ := hok2
          constructor
          · rw [← hss]
            rw [atMostOneSessionPerBooking, List.pairwise_append]
            refine ⟨hinv, List.pairwise_singleton _ _, ?_⟩
            intro s hsmem s2 hs2mem
            rw [List.mem_singleton] at hs2mem
            subst hs2mem
            intro heq
            have : ∃ s ∈ sessions, s.bookingId = bookingId := ⟨s, hsmem, heq⟩
            rw [← hexiff] at this
            rw [hex] at this
            cases this
          · exact ⟨b, rfl, hst, hbk.symm, hss.symm⟩
    · constructor
      · constructor
        · rintro ⟨st2, hok⟩
          simp [createSession, hf, hst] at hok
        · rintro ⟨⟨b2, hb2, hst2⟩, _⟩
          rw [Option.some.injEq] at hb2
          subst hb2
          exact absurd hst2 hst
      · intro bk2 ss2 hok
        simp [createSession, hf, hst] at hok

/-- Witness for C10: creating a session for the confirmed booking 1 with
an empty session table succeeds, completes the booking, inserts the
session, and keeps sessions unique per booking. -/
theorem createSession_correct_witness :
    createSession exState0 [] 1 21 100 none =
      .ok ([⟨1, 11, 7, 0, "10:00", 60, .completed, none, none, none, none, none⟩],
        [⟨21, 1, 11, 7, 100⟩]) ∧
    atMostOneSessionPerBooking ([] : List SessionRec) ∧
    atMostOneSessionPerBooking [(⟨21, 1, 11, 7, 100⟩ : SessionRec)] := by
  refine ⟨rfl, List.Pairwise.nil, ?_⟩
  have h := (createSession_correct exState0 [] 1 21 100 none).2
    [⟨1, 11, 7, 0, "10:00", 60, .completed, none, none, none, none, none⟩]
    [⟨21, 1, 11, 7, 100⟩] rfl List.Pairwise.nil
  exact h.1

theorem overlapFree_map (f : Booking → Booking) (bs : List Booking)
    (hKeep : ∀ b : Booking, (f b).therapistId = b.therapistId ∧
      (f b).sessionDate = b.sessionDate ∧ (f b).sessionTime = b.sessionTime ∧
      (f b).duration = b.duration)
    (hAct : ∀ b : Booking, isActiveStatus (f b).status = true →
      isActiveStatus b.status = true) :
    overlapFree bs → overlapFree (bs.map f) := by
  intro h
  rw [overlapFree, List.pairwise_map]
  refine h.imp ?_
  intro a b hab hg ha hb
  obtain ⟨ka1, ka2, ka3, ka4⟩ := hKeep a
  obtain ⟨kb1, kb2, kb3, kb4⟩ := hKeep b
  have hg2 : sameSlotGroup a b = true := by
    unfold sameSlotGroup at hg ⊢
    rw [ka1, ka2, kb1, kb2] at hg
    exact hg
  have hres := hab hg2 (hAct a ha) (hAct b hb)
  have hov : bookingsOverlap (f a) (f b) = bookingsOverlap a b := by
    unfold bookingsOverlap
    rw [ka3, ka4, kb3, kb4]
  rw [hov]
  exact hres

/-- C1 counterexample: the state holding only the confirmed 10:00
booking satisfies the no-overlap invariant, yet `createBooking` accepts
the request for 10:30 (same therapist, same day, 60 minutes), and the
resulting state violates the invariant: the intervals of the 10:00 and
10:30 bookings overlap. -/
theorem createBooking_breaks_overlap_invariant :
    overlapFree exState0 ∧
    createBooking exState0 (some (exTherapistAvail, true)) exOverlapReq 2 12 =
      .ok [exBooking1, exOverlapBooking] ∧
    ¬ overlapFree [exBooking1, exOverlapBooking] :=
  ⟨by decide, rfl, by decide⟩

/-- C1 amended: `cancelBooking` and the no-show sweep preserve the
no-overlap invariant (they only remove bookings from the active
statuses), and `createBooking` preserves the weaker invariant that
active bookings of a therapist on a date have pairwise distinct
start-time strings — but, per the counterexample, neither `createBooking`
nor `updateBooking` preserves the no-overlap invariant itself. -/
theorem bookingOps_preserve_invariants :
    (∀ (bs : List Booking) (th : Option (WeeklyAvailability × Bool))
       (req : BookingRequest) (nid pid : Nat) (bs2 : List Booking),
       timeUniq bs → createBooking bs th req nid pid = .ok bs2 → timeUniq bs2) ∧
    (∀ (bs : List Booking) (id now actorId : Nat) (reason : Option String),
       overlapFree bs →
       overlapFree (cancelBookingState bs id now actorId reason)) ∧
    (∀ (today : Nat) (bs : List Booking),
       overlapFree bs → overlapFree (markNoShows today bs)) := by
  refine ⟨?_, ?_, ?_⟩
  · intro bs th req nid pid bs2 hU hok
    unfold createBooking at hok
    split at hok
    · exact Except.noConfusion hok
    · split at hok
      · exact Except.noConfusion hok
      · split at hok
        · exact Except.noConfusion hok
        · split at hok
          · exact Except.noConfusion hok
          · split at hok
            · exact Except.noConfusion hok
            · rename_i hc
              rw [Except.ok.injEq] at hok
              subst hok
              rw [timeUniq, List.pairwise_append]
              refine ⟨hU, List.pairwise_singleton _ _, ?_⟩
              intro x hx y hy
              rw [List.mem_singleton] at hy
              subst hy
              intro hgroup hactx hacty heq
              apply hc
              refine (conflictExists_iff bs req).mpr ⟨x, hx, ?_, ?_, ?_, ?_⟩
              · have := (Bool.and_eq_true _ _).mp hgroup
                exact of_decide_eq_true this.1
              · have := (Bool.and_eq_true _ _).mp hgroup
                exact of_decide_eq_true this.2
              · exact heq
              · exact (isActiveStatus_iff _).mp hactx
  · intro bs id now actorId reason h
    unfold cancelBookingState
    refine overlapFree_map _ bs ?_ ?_ h
    · intro b
      by_cases hid : b.id = id
      · simp only [if_pos hid]
        unfold cancelBooking
        by_cases h1 : b.status = .cancelled
        · rw [if_pos h1]
          exact ⟨rfl, rfl, rfl, rfl⟩
        · rw [if_neg h1]
          by_cases h2 : b.status = .completed
          · rw [if_pos h2]
            exact ⟨rfl, rfl, rfl, rfl⟩
          · rw [if_neg h2]
            exact ⟨rfl, rfl, rfl, rfl⟩
      · simp [if_neg hid]
    · intro b hactive
      by_cases hid : b.id = id
      · simp only [if_pos hid] at hactive
        unfold cancelBooking at hactive
        by_cases h1 : b.status = .cancelled
        · rw [if_pos h1] at hactive
          exact hactive
        · rw [if_neg h1] at hactive
          by_cases h2 : b.status = .completed
          · rw [if_pos h2] at hactive
            exact hactive
          · rw [if_neg h2] at hactive
            simp [isActiveStatus] at hactive
      · simp only [if_neg hid] at hactive
        exact hactive
  · intro today bs h
    unfold markNoShows
    refine overlapFree_map _ bs ?_ ?_ h
    · intro b
      split <;> simp
    · intro b hactive
      split at hactive
      · simp [isActiveStatus] at hactive
      · exact hactive

/-- Witness for the amended C1: the preserved invariants at concrete
states — a non-conflicting creation keeps start times distinct, and a
cancellation and a sweep keep the no-overlap invariant. -/
theorem bookingOps_preserve_invariants_witness :
    timeUniq exState0 ∧
    createBooking exState0 (some (exTherapistAvail, true)) exFreeReq 2 12 =
      .ok [exBooking1, exFreeBooking] ∧
    timeUniq [exBooking1, exFreeBooking] ∧
    overlapFree exState0 ∧
    overlapFree (cancelBookingState exState0 1 5 9 none) ∧
    overlapFree (markNoShows 3 exState0) :=
  ⟨by decide, rfl,
    bookingOps_preserve_invariants.1 exState0 (some (exTherapistAvail, true))
      exFreeReq 2 12 [exBooking1, exFreeBooking] (by decide) rfl,
    by decide,
    bookingOps_preserve_invariants.2.1 exState0 1 5 9 none (by decide),
    bookingOps_preserve_invariants.2.2 3 exState0 (by decide)⟩

end Arohana
